import Mathlib

/-!
Verification of the lil-bank-buddy analysis core (src/src/core/analysis.py and
the legacy copy src/src/analysis.py).

Shallow embedding conventions:
* a pandas DataFrame of transaction rows is a List Transaction;
* transaction dates are integers counting days (pd.Timestamp arithmetic with
  pd.Timedelta(days = n) becomes integer subtraction of n);
* monetary amounts are exact rationals (Python floats idealised as Rat);
* the wall clock pd.Timestamp.now() is an explicit parameter now : Int;
* a date_range value of none models the string sentinel pair ("N/A", "N/A"),
  some (lo, hi) models the pair of formatted min and max dates;
* pandas sort_values(by, ascending = False) becomes a sort with
  the corresponding relation, Series.unique() becomes pdUnique, and the
  case-insensitive regex containment str.contains(pat, case = False) becomes
  lower-cased character-list infix containment.
-/

/-- Transaction row as read from the store: the four columns the analysis
core actually touches (date, description, category, amount). The category is
optional, modelling a NaN / null category cell. -/
structure Transaction where
  date : Int
  amount : Rat
  category : Option String
  descr : String
deriving Repr, DecidableEq

/-- Case-insensitive substring containment: models
Series.str.contains(pat, case = False, na = False) on one cell. -/
def containsCI (s pat : String) : Bool :=
  decide ((pat.toList.map Char.toLower) <:+: (s.toList.map Char.toLower))

/-- Python abs() on an amount, written out so that it evaluates by kernel
reduction on concrete rationals. -/
def ratAbs (x : Rat) : Rat :=
  if x < 0 then -x else x

theorem ratAbs_eq_abs (x : Rat) : ratAbs x = |x| := by
  unfold ratAbs
  by_cases h : x < 0
  · rw [if_pos h, abs_of_neg h]
  · rw [if_neg h, abs_of_nonneg (le_of_not_lt h)]

/-- Broad settlement payment pattern of find_last_settlement_date: the regex
CREDIT CARD PAYMENT|Payment, matched case-insensitively. -/
def matchesSettlementPattern (s : String) : Bool :=
  containsCI s "CREDIT CARD PAYMENT" || containsCI s "Payment"

/-- Row predicate of the settlement detector: amount < 0 and the description
matches the broad payment pattern. -/
def isSettlementCandidate (t : Transaction) : Bool :=
  decide (t.amount < 0) && matchesSettlementPattern t.descr

/-- Strict payment pattern of analyze_payment_patterns: only
CREDIT CARD PAYMENT, matched case-insensitively. -/
def strictPaymentPattern (s : String) : Bool :=
  containsCI s "CREDIT CARD PAYMENT"

/-- Row predicate of analyze_payment_patterns: amount < 0 and the description
matches the strict pattern. -/
def isStrictPaymentCandidate (t : Transaction) : Bool :=
  decide (t.amount < 0) && strictPaymentPattern t.descr

/-- Comparison relation embedding sort_values(by = date, ascending = False):
the row of the later date comes first. -/
def dateDescRel (a b : Transaction) : Prop :=
  b.date ≤ a.date

instance : DecidableRel dateDescRel := fun a b => Int.decLe b.date a.date

instance : IsTotal Transaction dateDescRel :=
  ⟨fun a b => le_total b.date a.date⟩

instance : IsTrans Transaction dateDescRel :=
  ⟨fun _ _ _ hab hbc => le_trans hbc hab⟩

/-- DataFrame.sort_values(by = date, ascending = False). pandas sorts with
an unstable quicksort by default, so any reordering by descending date is a
faithful model; insertionSort is used because its sortedness and permutation
lemmas are available and it evaluates by kernel reduction. -/
def sortedByDateDesc (df : List Transaction) : List Transaction :=
  List.insertionSort dateDescRel df

/-- Date range report: (min date, max date) of a nonempty row set, the
sentinel none (printed as ("N/A", "N/A")) for an empty one. -/
def dateRange (l : List Transaction) : Option (Int × Int) :=
  match (l.map Transaction.date).min?, (l.map Transaction.date).max? with
  | some lo, some hi => some (lo, hi)
  | _, _ => none

/-- Accumulator form of Series.unique(): keep the first occurrence of each
value, tracking the values already seen. -/
def pdUniqueAux {α : Type} [DecidableEq α] (seen : List α) : List α → List α
  | [] => []
  | a :: as => if a ∈ seen then pdUniqueAux seen as else a :: pdUniqueAux (a :: seen) as

/-- Series.unique(): the values in order of first appearance, each once. -/
def pdUnique {α : Type} [DecidableEq α] (l : List α) : List α :=
  pdUniqueAux [] l

/-- BankAnalyzer.find_last_settlement_date: filter to broad payment
candidates, return none when there are none, otherwise sort descending by
date, take the most recent, count candidates in the 30-day window before it
(a count the code then ignores: both branches return the same date), and
return the date of the most recent candidate. -/
def findLastSettlementDate (df : List Transaction) : Option Int :=
  let payments := df.filter isSettlementCandidate
  if payments.length = 0 then
    none
  else
    match List.insertionSort dateDescRel payments with
    | [] => none
    | mostRecent :: rest =>
      let mostRecentDate := mostRecent.date
      let windowStart := mostRecentDate - 30
      let paymentsInWindow := (mostRecent :: rest).filter fun t =>
        decide (windowStart ≤ t.date) && decide (t.date ≤ mostRecentDate)
      if 2 ≤ paymentsInWindow.length then
        some mostRecentDate
      else
        some mostRecentDate

/-- Simplified settlement detector used to state the refinement claim: just
the date of the most recent broad-payment candidate, none when there is none. -/
def findLastSettlementDateSimple (df : List Transaction) : Option Int :=
  ((df.filter isSettlementCandidate).map Transaction.date).max?

/-- Window filter of get_recent_activity: rows with
date >= now - Timedelta(days) of the days argument. -/
def recentWindow (df : List Transaction) (now days : Int) : List Transaction :=
  df.filter fun t => decide (now - days ≤ t.date)

/-- Result shape of BankAnalyzer.get_recent_activity. -/
structure RecentActivityResult where
  num_transactions : Nat
  total_amount : Rat
  top_categories : List (String × Nat)
deriving Repr, DecidableEq

/-- BankAnalyzer.get_recent_activity: count, amount sum, and top three
categories by row count over the last days days (value_counts drops null
categories and sorts counts descending; ties keep first-appearance order). -/
def getRecentActivity (df : List Transaction) (now days : Int) : RecentActivityResult :=
  let recent := recentWindow df now days
  { num_transactions := recent.length
    total_amount := (recent.map Transaction.amount).sum
    top_categories :=
      (((pdUnique (recent.map Transaction.category)).filterMap fun c =>
        match c with
        | none => none
        | some cat =>
          some (cat, (recent.filter fun t => decide (t.category = some cat)).length)
       ).insertionSort fun a b => b.2 ≤ a.2).take 3 }

/-- One entry of the recent_payments list of analyze_payment_patterns:
date, absolute amount, description. -/
structure PaymentEntry where
  date : Int
  amount : Rat
  descr : String
deriving Repr, DecidableEq

/-- Result shape of BankAnalyzer.analyze_payment_patterns. -/
structure PaymentPatternResult where
  recent_payments : List PaymentEntry
  total_recent_payments : Rat
  payment_count : Nat
deriving Repr, DecidableEq

/-- Strict payment candidates of analyze_payment_patterns after the initial
descending date sort of the frame. -/
def paymentCandidates (df : List Transaction) : List Transaction :=
  (sortedByDateDesc df).filter isStrictPaymentCandidate

/-- BankAnalyzer.analyze_payment_patterns: sort descending by date, keep
strict credit-card-payment rows with amount < 0; on an empty match return the
zero result, otherwise report the first four rows (date, absolute amount,
description), the absolute value of their summed amounts, and their count. -/
def analyzePaymentPatterns (df : List Transaction) : PaymentPatternResult :=
  let payments := paymentCandidates df
  if payments.length = 0 then
    { recent_payments := [], total_recent_payments := 0, payment_count := 0 }
  else
    let recentPayments := payments.take 4
    { recent_payments := recentPayments.map fun t =>
        { date := t.date, amount := ratAbs t.amount, descr := t.descr }
      total_recent_payments := ratAbs (recentPayments.map Transaction.amount).sum
      payment_count := recentPayments.length }

/-- One row of a category_breakdown list. -/
structure CategorySplit where
  category : String
  total_amount : Rat
  person1_share : Rat
  person2_share : Rat
deriving Repr, DecidableEq

/-- Result shape of ExpenseSplitter.calculate_current_balance_split. -/
structure CurrentBalanceSplitResult where
  total_balance : Rat
  total_expenses : Rat
  total_payments_credits : Rat
  person1_percentage : Int
  person2_percentage : Int
  person1_owes : Rat
  person2_owes : Rat
  category_breakdown : List CategorySplit
  num_expense_transactions : Nat
  date_range : Option (Int × Int)
deriving Repr, DecidableEq

/-- Category subtotal of the rows of one category: the summed amount of the
rows whose category equals cat. -/
def categoryTotal (expenses : List Transaction) (cat : String) : Rat :=
  ((expenses.filter fun t => decide (t.category = some cat)).map Transaction.amount).sum

/-- Category breakdown loop of calculate_current_balance_split: one entry per
distinct non-null category in order of first appearance, carrying the signed
category subtotal and its two percentage shares. -/
def categorySplitsOf (expenses : List Transaction) (pct : Int) : List CategorySplit :=
  (pdUnique (expenses.map Transaction.category)).filterMap fun c =>
    match c with
    | none => none
    | some cat =>
      some { category := cat
             total_amount := categoryTotal expenses cat
             person1_share := categoryTotal expenses cat * ((pct : Rat) / 100)
             person2_share := categoryTotal expenses cat * ((100 - (pct : Rat)) / 100) }

/-- Category breakdown loop of calculate_expense_split: like categorySplitsOf
but each category subtotal is taken in absolute value. -/
def categorySplitsAbsOf (expenses : List Transaction) (pct : Int) : List CategorySplit :=
  (pdUnique (expenses.map Transaction.category)).filterMap fun c =>
    match c with
    | none => none
    | some cat =>
      some { category := cat
             total_amount := ratAbs (categoryTotal expenses cat)
             person1_share := ratAbs (categoryTotal expenses cat) * ((pct : Rat) / 100)
             person2_share := ratAbs (categoryTotal expenses cat) * ((100 - (pct : Rat)) / 100) }

/-- ExpenseSplitter.calculate_current_balance_split: the signed sum of all
amounts split by percentage, with a category breakdown over the positive
amounts, skipping null categories, sorted descending by category total. -/
def calculateCurrentBalanceSplit (df : List Transaction)
    (person1_percentage : Int) : CurrentBalanceSplitResult :=
  let total_balance := (df.map Transaction.amount).sum
  let person1_share := total_balance * ((person1_percentage : Rat) / 100)
  let person2_share := total_balance * ((100 - (person1_percentage : Rat)) / 100)
  let expenses := df.filter fun t => decide (0 < t.amount)
  let negatives := df.filter fun t => decide (t.amount < 0)
  let categorySplits := categorySplitsOf expenses person1_percentage
  { total_balance := total_balance
    total_expenses := if expenses.length = 0 then 0 else (expenses.map Transaction.amount).sum
    total_payments_credits :=
      if negatives.length = 0 then 0 else ratAbs (negatives.map Transaction.amount).sum
    person1_percentage := person1_percentage
    person2_percentage := 100 - person1_percentage
    person1_owes := person1_share
    person2_owes := person2_share
    category_breakdown :=
      categorySplits.insertionSort fun a b => b.total_amount ≤ a.total_amount
    num_expense_transactions := expenses.length
    date_range := dateRange df }

/-- Result shape of ExpenseSplitter.calculate_expense_split. -/
structure ExpenseSplitResult where
  total_expenses : Rat
  person1_percentage : Int
  person2_percentage : Int
  person1_share : Rat
  person2_share : Rat
  category_breakdown : List CategorySplit
  num_expense_transactions : Nat
  settlement_info : String
  date_range : Option (Int × Int)
deriving Repr, DecidableEq

/-- Window of calculate_expense_split: rows strictly after the detected
settlement date, or the last 30 days before now when no settlement pattern
was found. -/
def expenseWindow (df : List Transaction) (now : Int) : List Transaction :=
  let sorted := sortedByDateDesc df
  match findLastSettlementDate sorted with
  | some lastSettlementDate => sorted.filter fun t => decide (lastSettlementDate < t.date)
  | none => sorted.filter fun t => decide (now - 30 ≤ t.date)

/-- Expense rows of calculate_expense_split: the window rows with
amount < 0 (the expense sign convention of this function). -/
def expenseWindowExpenses (df : List Transaction) (now : Int) : List Transaction :=
  (expenseWindow df now).filter fun t => decide (t.amount < 0)

/-- ExpenseSplitter.calculate_expense_split: absolute sum of the negative
amounts in the post-settlement (or fallback 30-day) window, split by
percentage, with an absolute-valued category breakdown skipping null
categories, sorted descending by category total. -/
def calculateExpenseSplit (df : List Transaction) (now : Int)
    (person1_percentage : Int) : ExpenseSplitResult :=
  let expenses := expenseWindowExpenses df now
  let total_expenses := ratAbs (expenses.map Transaction.amount).sum
  let person1_share := total_expenses * ((person1_percentage : Rat) / 100)
  let person2_share := total_expenses * ((100 - (person1_percentage : Rat)) / 100)
  let categorySplits := categorySplitsAbsOf expenses person1_percentage
  { total_expenses := total_expenses
    person1_percentage := person1_percentage
    person2_percentage := 100 - person1_percentage
    person1_share := person1_share
    person2_share := person2_share
    category_breakdown :=
      categorySplits.insertionSort fun a b => b.total_amount ≤ a.total_amount
    num_expense_transactions := expenses.length
    settlement_info :=
      match findLastSettlementDate (sortedByDateDesc df) with
      | some d => "Since last settlement on " ++ toString d
      | none => "Last 30 days (no settlement pattern detected)"
    date_range := dateRange expenses }

theorem mem_pdUniqueAux {α : Type} [DecidableEq α] (a : α) :
    ∀ (l seen : List α), a ∈ pdUniqueAux seen l ↔ a ∈ l ∧ a ∉ seen := by
  intro l
  induction l with
  | nil => simp [pdUniqueAux]
  | cons x xs ih =>
    intro seen
    by_cases hx : x ∈ seen
    · rw [pdUniqueAux, if_pos hx, ih]
      constructor
      · rintro ⟨h1, h2⟩
        exact ⟨List.mem_cons_of_mem _ h1, h2⟩
      · rintro ⟨h1, h2⟩
        rcases List.mem_cons.mp h1 with h | h
        · exact absurd (h ▸ hx) h2
        · exact ⟨h, h2⟩
    · rw [pdUniqueAux, if_neg hx]
      constructor
      · intro h
        rcases List.mem_cons.mp h with h | h
        · exact ⟨h ▸ List.mem_cons_self _ _, h ▸ hx⟩
        · rcases (ih _).mp h with ⟨h1, h2⟩
          refine ⟨List.mem_cons_of_mem _ h1, fun hs => h2 (List.mem_cons_of_mem _ hs)⟩
      · rintro ⟨h1, h2⟩
        rcases List.mem_cons.mp h1 with h | h
        · exact h ▸ List.mem_cons_self _ _
        · by_cases hax : a = x
          · exact hax ▸ List.mem_cons_self _ _
          · refine List.mem_cons_of_mem _ ((ih _).mpr ⟨h, ?_⟩)
            intro hs
            rcases List.mem_cons.mp hs with h3 | h3
            · exact hax h3
            · exact h2 h3

theorem mem_pdUnique {α : Type} [DecidableEq α] (a : α) (l : List α) :
    a ∈ pdUnique l ↔ a ∈ l := by
  rw [pdUnique, mem_pdUniqueAux]
  simp

theorem nodup_pdUniqueAux {α : Type} [DecidableEq α] :
    ∀ (l seen : List α), (pdUniqueAux seen l).Nodup := by
  intro l
  induction l with
  | nil => intro seen; simp [pdUniqueAux]
  | cons x xs ih =>
    intro seen
    by_cases hx : x ∈ seen
    · rw [pdUniqueAux, if_pos hx]
      exact ih seen
    · rw [pdUniqueAux, if_neg hx]
      refine List.nodup_cons.mpr ⟨?_, ih _⟩
      intro hmem
      exact ((mem_pdUniqueAux _ _ _).mp hmem).2 (List.mem_cons_self _ _)

theorem nodup_pdUnique {α : Type} [DecidableEq α] (l : List α) :
    (pdUnique l).Nodup :=
  nodup_pdUniqueAux l []

theorem head_sortDesc_max (l : List Transaction) (t : Transaction) (rest : List Transaction)
    (h : List.insertionSort dateDescRel l = t :: rest) :
    t ∈ l ∧ ∀ u ∈ l, u.date ≤ t.date := by
  have hperm : (List.insertionSort dateDescRel l).Perm l := List.perm_insertionSort _ l
  have hsorted := List.sorted_insertionSort dateDescRel l
  rw [h] at hperm hsorted
  constructor
  · exact hperm.mem_iff.mp (List.mem_cons_self _ _)
  · intro u hu
    rcases List.mem_cons.mp (hperm.mem_iff.mpr hu) with h1 | h1
    · exact h1 ▸ le_refl _
    · exact (List.pairwise_cons.mp hsorted).1 u h1

theorem intMax?_eq_some (l : List Int) (a : Int) (hmem : a ∈ l) (hle : ∀ b ∈ l, b ≤ a) :
    l.max? = some a :=
  (@List.max?_eq_some_iff Int a _ _ ⟨fun h1 h2 => le_antisymm h1 h2⟩
    le_refl max_choice (fun _ _ _ => max_le_iff) l).mpr ⟨hmem, hle⟩

theorem intMax?_perm {l₁ l₂ : List Int} (h : l₁.Perm l₂) : l₁.max? = l₂.max? := by
  cases h2 : l₂.max? with
  | none =>
    rw [List.max?_eq_none_iff] at h2 ⊢
    exact (h2 ▸ h).eq_nil
  | some a =>
    have hchar := @List.max?_eq_some_iff Int a _ _ ⟨fun h1 h2 => le_antisymm h1 h2⟩
      le_refl max_choice (fun _ _ _ => max_le_iff) l₂
    rcases hchar.mp h2 with ⟨hmem, hle⟩
    exact intMax?_eq_some _ _ (h.mem_iff.mpr hmem) (fun b hb => hle b (h.mem_iff.mp hb))

theorem findLastSettlementDate_eq_max (df : List Transaction) :
    findLastSettlementDate df
      = ((df.filter isSettlementCandidate).map Transaction.date).max? := by
  unfold findLastSettlementDate
  by_cases h0 : (df.filter isSettlementCandidate).length = 0
  · rw [List.length_eq_zero] at h0
    simp [h0]
  · simp only [h0, if_false]
    cases hms : List.insertionSort dateDescRel (df.filter isSettlementCandidate) with
    | nil =>
      exfalso
      have hperm := List.perm_insertionSort dateDescRel (df.filter isSettlementCandidate)
      rw [hms] at hperm
      exact h0 (hperm.length_eq ▸ rfl)
    | cons t rest =>
      obtain ⟨hmem, hle⟩ := head_sortDesc_max _ t rest hms
      have hmax : ((df.filter isSettlementCandidate).map Transaction.date).max? = some t.date := by
        refine intMax?_eq_some _ _ (List.mem_map_of_mem _ hmem) ?_
        intro b hb
        rcases List.mem_map.mp hb with ⟨u, hu, rfl⟩
        exact hle u hu
      rw [hmax]
      simp

theorem sum_map_filter_split {T : Type} (p : T → Bool) (val : T → Rat) (l : List T) :
    ((l.filter p).map val).sum + ((l.filter fun t => !(p t)).map val).sum = (l.map val).sum := by
  induction l with
  | nil => simp
  | cons a as ih =>
    by_cases h : p a = true <;>
      simp only [List.filter_cons, h, Bool.not_true, Bool.not_false, if_true, if_false,
        List.map_cons, List.sum_cons, cond_true, cond_false] <;>
      push_cast <;> linarith [ih]

theorem sum_partition (val : Transaction → Rat) :
    ∀ (keys : List (Option String)) (l : List Transaction),
      keys.Nodup → (∀ t ∈ l, t.category ∈ keys ∧ t.category ≠ none) →
      (keys.filterMap fun c =>
        match c with
        | none => none
        | some cat =>
          some (((l.filter fun t => decide (t.category = some cat)).map val).sum)).sum
        = (l.map val).sum := by
  intro keys
  induction keys with
  | nil =>
    intro l _ hcov
    have hl : l = [] := by
      cases l with
      | nil => rfl
      | cons t ts => exact absurd (hcov t (List.mem_cons_self _ _)).1 (List.not_mem_nil _)
    simp [hl]
  | cons k ks ih =>
    intro l hnd hcov
    match k with
    | none =>
      simp only [List.filterMap_cons]
      apply ih l (List.nodup_cons.mp hnd).2
      intro t ht
      rcases hcov t ht with ⟨hmem, hns⟩
      rcases List.mem_cons.mp hmem with h | h
      · exact absurd h hns
      · exact ⟨h, hns⟩
    | some cat =>
      simp only [List.filterMap_cons, List.sum_cons]
      have hsplit := sum_map_filter_split (fun t => decide (t.category = some cat)) val l
      have htail :
          (ks.filterMap fun c =>
            match c with
            | none => none
            | some cat2 =>
              some (((l.filter fun t => decide (t.category = some cat2)).map val).sum)).sum
          = (ks.filterMap fun c =>
            match c with
            | none => none
            | some cat2 =>
              some ((((l.filter fun t => !(decide (t.category = some cat))).filter
                fun t => decide (t.category = some cat2)).map val).sum)).sum := by
        congr 1
        apply List.filterMap_congr
        intro c hc
        match c with
        | none => rfl
        | some cat2 =>
          have hne : cat2 ≠ cat := by
            intro he
            subst he
            exact (List.nodup_cons.mp hnd).1 hc
          have hfe : (l.filter fun t => decide (t.category = some cat2))
              = ((l.filter fun t => !(decide (t.category = some cat))).filter
                  fun t => decide (t.category = some cat2)) := by
            rw [List.filter_filter]
            apply List.filter_congr
            intro t _
            by_cases h : t.category = some cat2 <;> simp [h, hne]
          simp only [hfe]
      rw [htail]
      rw [ih _ (List.nodup_cons.mp hnd).2 ?_]
      · linarith [hsplit]
      · intro t ht
        rcases List.mem_filter.mp ht with ⟨htl, hnc⟩
        rcases hcov t htl with ⟨hmem, hns⟩
        refine ⟨?_, hns⟩
        rcases List.mem_cons.mp hmem with h | h
        · exfalso
          rw [h] at hnc
          simp at hnc
        · exact h

theorem list_sum_nonpos (l : List Rat) (h : ∀ x ∈ l, x ≤ 0) : l.sum ≤ 0 := by
  induction l with
  | nil => simp
  | cons a as ih =>
    simp only [List.sum_cons]
    have ha := h a (List.mem_cons_self _ _)
    have has := ih fun x hx => h x (List.mem_cons_of_mem _ hx)
    linarith

theorem sum_map_abs_of_nonpos (l : List Rat) (h : ∀ x ∈ l, x ≤ 0) :
    (l.map fun x => |x|).sum = -l.sum := by
  induction l with
  | nil => simp
  | cons a as ih =>
    simp only [List.map_cons, List.sum_cons]
    rw [abs_of_nonpos (h a (List.mem_cons_self _ _)),
      ih fun x hx => h x (List.mem_cons_of_mem _ hx)]
    ring

theorem ratAbs_of_nonpos (x : Rat) (h : x ≤ 0) : ratAbs x = -x := by
  rw [ratAbs_eq_abs, abs_of_nonpos h]

theorem sum_categorySplitsOf (expenses : List Transaction) (pct : Int)
    (h : ∀ t ∈ expenses, t.category ≠ none) :
    ((categorySplitsOf expenses pct).map CategorySplit.total_amount).sum
      = (expenses.map Transaction.amount).sum := by
  unfold categorySplitsOf
  rw [List.map_filterMap]
  have hcongr : ∀ c ∈ pdUnique (expenses.map Transaction.category),
      (Option.map CategorySplit.total_amount
        (match c with
        | none => none
        | some cat =>
          some ({ category := cat
                  total_amount := categoryTotal expenses cat
                  person1_share := categoryTotal expenses cat * ((pct : Rat) / 100)
                  person2_share := categoryTotal expenses cat * ((100 - (pct : Rat)) / 100) }
            : CategorySplit)))
      = (match c with
        | none => none
        | some cat =>
          some (((expenses.filter fun t =>
            decide (t.category = some cat)).map Transaction.amount).sum)) := by
    intro c _
    cases c with
    | none => rfl
    | some cat => rfl
  rw [List.filterMap_congr hcongr]
  apply sum_partition
  · exact nodup_pdUnique _
  · intro t ht
    exact ⟨(mem_pdUnique _ _).mpr (List.mem_map_of_mem _ ht), h t ht⟩

theorem sum_categorySplitsAbsOf (expenses : List Transaction) (pct : Int)
    (hcat : ∀ t ∈ expenses, t.category ≠ none)
    (hneg : ∀ t ∈ expenses, t.amount < 0) :
    ((categorySplitsAbsOf expenses pct).map CategorySplit.total_amount).sum
      = ratAbs (expenses.map Transaction.amount).sum := by
  unfold categorySplitsAbsOf
  rw [List.map_filterMap]
  have hcongr : ∀ c ∈ pdUnique (expenses.map Transaction.category),
      (Option.map CategorySplit.total_amount
        (match c with
        | none => none
        | some cat =>
          some ({ category := cat
                  total_amount := ratAbs (categoryTotal expenses cat)
                  person1_share := ratAbs (categoryTotal expenses cat) * ((pct : Rat) / 100)
                  person2_share :=
                    ratAbs (categoryTotal expenses cat) * ((100 - (pct : Rat)) / 100) }
            : CategorySplit)))
      = (Option.map ratAbs (match c with
        | none => none
        | some cat =>
          some (((expenses.filter fun t =>
            decide (t.category = some cat)).map Transaction.amount).sum))) := by
    intro c _
    cases c with
    | none => rfl
    | some cat => rfl
  rw [List.filterMap_congr hcongr]
  rw [← List.map_filterMap]
  have habs : ∀ x ∈ (pdUnique (expenses.map Transaction.category)).filterMap fun c =>
      (match c with
      | none => none
      | some cat =>
        some (((expenses.filter fun t =>
          decide (t.category = some cat)).map Transaction.amount).sum)), x ≤ 0 := by
    intro x hx
    rcases List.mem_filterMap.mp hx with ⟨c, _, hc⟩
    cases c with
    | none => simp at hc
    | some cat =>
      simp only [Option.some.injEq] at hc
      subst hc
      apply list_sum_nonpos
      intro y hy
      rcases List.mem_map.mp hy with ⟨t, ht, rfl⟩
      exact le_of_lt (hneg t (List.mem_filter.mp ht).1)
  have hmapabs : ((pdUnique (expenses.map Transaction.category)).filterMap fun c =>
      (match c with
      | none => none
      | some cat =>
        some (((expenses.filter fun t =>
          decide (t.category = some cat)).map Transaction.amount).sum))).map ratAbs
      = ((pdUnique (expenses.map Transaction.category)).filterMap fun c =>
      (match c with
      | none => none
      | some cat =>
        some (((expenses.filter fun t =>
          decide (t.category = some cat)).map Transaction.amount).sum))).map fun x => |x| := by
    apply List.map_congr_left
    intro x _
    exact ratAbs_eq_abs x
  rw [hmapabs, sum_map_abs_of_nonpos _ habs]
  rw [sum_partition Transaction.amount _ _ (nodup_pdUnique _) ?side]
  case side =>
    intro t ht
    exact ⟨(mem_pdUnique _ _).mpr (List.mem_map_of_mem _ ht), hcat t ht⟩
  rw [ratAbs_of_nonpos]
  apply list_sum_nonpos
  intro y hy
  rcases List.mem_map.mp hy with ⟨t, ht, rfl⟩
  exact le_of_lt (hneg t ht)

theorem paymentCandidates_perm (df : List Transaction) :
    (paymentCandidates df).Perm (df.filter isStrictPaymentCandidate) :=
  (List.perm_insertionSort dateDescRel df).filter isStrictPaymentCandidate

theorem paymentCandidates_pairwise (df : List Transaction) :
    (paymentCandidates df).Pairwise dateDescRel :=
  (List.sorted_insertionSort dateDescRel df).filter isStrictPaymentCandidate

/-- C7: analyze_payment_patterns selects only rows with amount < 0 whose
description case-insensitively contains "credit card payment", returns at
most the 4 most recent of them as (date, absolute amount, description)
entries, reports their summed absolute amount and their count, and returns
the empty zero-valued result when nothing matches. -/
theorem claimC7_payment_patterns (df : List Transaction) :
    ((analyzePaymentPatterns df).recent_payments.length ≤ 4)
    ∧ ((analyzePaymentPatterns df).payment_count
        = (analyzePaymentPatterns df).recent_payments.length)
    ∧ ((analyzePaymentPatterns df).total_recent_payments
        = ((analyzePaymentPatterns df).recent_payments.map PaymentEntry.amount).sum)
    ∧ (∀ e ∈ (analyzePaymentPatterns df).recent_payments, ∃ t, t ∈ df ∧ t.amount < 0
        ∧ strictPaymentPattern t.descr = true
        ∧ e = { date := t.date, amount := ratAbs t.amount, descr := t.descr })
    ∧ (∀ e ∈ (analyzePaymentPatterns df).recent_payments,
        ∀ u ∈ (paymentCandidates df).drop 4, u.date ≤ e.date)
    ∧ (df.filter isStrictPaymentCandidate = [] →
        analyzePaymentPatterns df
          = { recent_payments := [], total_recent_payments := 0, payment_count := 0 }) := by
  by_cases h0 : (paymentCandidates df).length = 0
  · simp only [analyzePaymentPatterns, h0, if_pos]
    simp
  · simp only [analyzePaymentPatterns, h0, if_neg, if_false]
    have hmemP : ∀ t ∈ (paymentCandidates df).take 4,
        t ∈ df ∧ t.amount < 0 ∧ strictPaymentPattern t.descr = true := by
      intro t ht
      have htP : t ∈ paymentCandidates df := List.mem_of_mem_take ht
      have htf := (paymentCandidates_perm df).mem_iff.mp htP
      rcases List.mem_filter.mp htf with ⟨htdf, hcand⟩
      simp only [isStrictPaymentCandidate, Bool.and_eq_true, decide_eq_true_eq] at hcand
      exact ⟨htdf, hcand.1, hcand.2⟩
    refine ⟨?_, ?_, ?_, ?_, ?_, ?_⟩
    · simp [List.length_take]
    · simp
    · simp only [List.map_map]
      have h1 : (((paymentCandidates df).take 4).map
            (PaymentEntry.amount ∘ fun t =>
              ({ date := t.date, amount := ratAbs t.amount, descr := t.descr } : PaymentEntry)))
          = (((paymentCandidates df).take 4).map Transaction.amount).map ratAbs := by
        rw [List.map_map]
        rfl
      rw [h1]
      have hneg : ∀ x ∈ ((paymentCandidates df).take 4).map Transaction.amount, x ≤ 0 := by
        intro x hx
        rcases List.mem_map.mp hx with ⟨t, ht, rfl⟩
        exact le_of_lt (hmemP t ht).2.1
      have h2 : (((paymentCandidates df).take 4).map Transaction.amount).map ratAbs
          = (((paymentCandidates df).take 4).map Transaction.amount).map fun x => |x| := by
        apply List.map_congr_left
        intro x _
        exact ratAbs_eq_abs x
      rw [h2, sum_map_abs_of_nonpos _ hneg, ratAbs_of_nonpos _ (list_sum_nonpos _ hneg)]
    · intro e he
      rcases List.mem_map.mp he with ⟨t, ht, rfl⟩
      rcases hmemP t ht with ⟨htdf, hneg, hpat⟩
      exact ⟨t, htdf, hneg, hpat, rfl⟩
    · intro e he u hu
      rcases List.mem_map.mp he with ⟨t, ht, rfl⟩
      have hpair := paymentCandidates_pairwise df
      rw [← List.take_append_drop 4 (paymentCandidates df)] at hpair
      have := (List.pairwise_append.mp hpair).2.2 t ht u hu
      exact this
    · intro h6
      exfalso
      apply h0
      have := (paymentCandidates_perm df).length_eq
      rw [h6] at this
      simpa using this

/-- Fixture of the spec: the settlement payment of 2024-02-01, with dates
counted in days from 2024-01-01 (so day 31). -/
def txPayment : Transaction :=
  { date := 31, amount := -500, category := none, descr := "CREDIT CARD PAYMENT" }

/-- Fixture of the spec: the grocery charge of 2024-02-15 (day 45) with
amount -75. -/
def txGrocery : Transaction :=
  { date := 45, amount := -75, category := some "Groceries", descr := "HEB ONLINE GROCERY" }

/-- Counterexample row for the category-breakdown claim: a positive-amount
expense whose category cell is null. -/
def txMystery : Transaction :=
  { date := 0, amount := 5, category := none, descr := "MYSTERY CHARGE" }

/-- Witness row with a non-null category. -/
def txDining : Transaction :=
  { date := 10, amount := 42, category := some "Dining", descr := "TACO PLACE" }

/-- Witness row dated at the inclusive edge of a 30-day window ending at
day 30. -/
def txCoffee : Transaction :=
  { date := 0, amount := 1, category := none, descr := "COFFEE SHOP" }

/-- Witness row dated one day before the inclusive edge of a 30-day window
ending at day 30. -/
def txOld : Transaction :=
  { date := -1, amount := 1, category := none, descr := "OLD CHARGE" }

/-- C1: in calculate_current_balance_split the two owed shares sum exactly to
total_balance, and in calculate_expense_split the two shares sum exactly to
total_expenses, for any percentage in [0, 100] (amounts modelled as exact
rationals). -/
theorem claimC1_shares_sum_to_total (df : List Transaction) (now pct : Int)
    (_hp0 : 0 ≤ pct) (_hp100 : pct ≤ 100) :
    (calculateCurrentBalanceSplit df pct).person1_owes
        + (calculateCurrentBalanceSplit df pct).person2_owes
      = (calculateCurrentBalanceSplit df pct).total_balance
    ∧ (calculateExpenseSplit df now pct).person1_share
        + (calculateExpenseSplit df now pct).person2_share
      = (calculateExpenseSplit df now pct).total_expenses := by
  constructor <;> simp only [calculateCurrentBalanceSplit, calculateExpenseSplit] <;> ring

/-- Witness for C1 at a concrete account and percentage. -/
theorem claimC1_shares_sum_to_total_witness :
    ((0 : Int) ≤ 50 ∧ (50 : Int) ≤ 100)
    ∧ (calculateCurrentBalanceSplit [txPayment, txGrocery] 50).person1_owes
        + (calculateCurrentBalanceSplit [txPayment, txGrocery] 50).person2_owes
      = (calculateCurrentBalanceSplit [txPayment, txGrocery] 50).total_balance
    ∧ (calculateExpenseSplit [txPayment, txGrocery] 46 50).person1_share
        + (calculateExpenseSplit [txPayment, txGrocery] 46 50).person2_share
      = (calculateExpenseSplit [txPayment, txGrocery] 46 50).total_expenses :=
  ⟨⟨by decide, by decide⟩,
    (claimC1_shares_sum_to_total [txPayment, txGrocery] 46 50 (by decide) (by decide)).1,
    (claimC1_shares_sum_to_total [txPayment, txGrocery] 46 50 (by decide) (by decide)).2⟩

/-- C2: find_last_settlement_date is extensionally the function returning the
most recent candidate date; the two-or-more-payments-in-window check never
changes the result. -/
theorem claimC2_window_count_dead (df : List Transaction) :
    findLastSettlementDate df = findLastSettlementDateSimple df := by
  rw [findLastSettlementDate_eq_max]
  rfl

/-- C5: find_last_settlement_date returns none exactly when no row has a
negative amount together with a description matching the broad payment
pattern; it is a total function, so it returns normally on every input. -/
theorem claimC5_none_iff_no_candidate (df : List Transaction) :
    findLastSettlementDate df = none ↔ df.filter isSettlementCandidate = [] := by
  rw [findLastSettlementDate_eq_max, List.max?_eq_none_iff, List.map_eq_nil_iff]

/-- C10: find_last_settlement_date is invariant under permutation of its
input rows; the documented date-descending precondition is not needed for
the returned value. -/
theorem claimC10_perm_invariant (df df' : List Transaction) (h : df.Perm df') :
    findLastSettlementDate df = findLastSettlementDate df' := by
  rw [findLastSettlementDate_eq_max, findLastSettlementDate_eq_max]
  exact intMax?_perm ((h.filter _).map _)

/-- Witness for C10 at a concrete reordering. -/
theorem claimC10_perm_invariant_witness :
    ([txPayment, txGrocery] : List Transaction).Perm [txGrocery, txPayment]
    ∧ findLastSettlementDate [txPayment, txGrocery]
      = findLastSettlementDate [txGrocery, txPayment] :=
  ⟨by decide, claimC10_perm_invariant _ _ (by decide)⟩

/-- C4: on the spec fixture (payment dated 2024-02-01, grocery charge of -75
dated 2024-02-15), calculate_expense_split at 50 percent reports
total_expenses = 75.00 and person1_share = 37.50. -/
theorem claimC4_fixture :
    (calculateExpenseSplit [txPayment, txGrocery] 46 50).total_expenses = 75
    ∧ (calculateExpenseSplit [txPayment, txGrocery] 46 50).person1_share = 75 / 2 := by
  have h : expenseWindowExpenses [txPayment, txGrocery] 46 = [txGrocery] := by decide
  refine ⟨?_, ?_⟩ <;> simp only [calculateExpenseSplit, h] <;>
    norm_num [txGrocery, ratAbs]

/-- C9: at the boundary percentages, person1 gets a zero share at 0 percent
and person2 gets a zero share at 100 percent, in both split operations. -/
theorem claimC9_pct_boundary (df : List Transaction) (now : Int) :
    (calculateCurrentBalanceSplit df 0).person1_owes = 0
    ∧ (calculateCurrentBalanceSplit df 100).person2_owes = 0
    ∧ (calculateExpenseSplit df now 0).person1_share = 0
    ∧ (calculateExpenseSplit df now 100).person2_share = 0 := by
  refine ⟨?_, ?_, ?_, ?_⟩ <;>
    simp [calculateCurrentBalanceSplit, calculateExpenseSplit]

/-- C6: when the post-settlement (or fallback 30-day) window holds no
negative-amount row, calculate_expense_split reports zero totals and shares,
an empty category breakdown, a zero row count and the sentinel date range. -/
theorem claimC6_empty_window (df : List Transaction) (now pct : Int)
    (h : expenseWindowExpenses df now = []) :
    (calculateExpenseSplit df now pct).total_expenses = 0
    ∧ (calculateExpenseSplit df now pct).person1_share = 0
    ∧ (calculateExpenseSplit df now pct).person2_share = 0
    ∧ (calculateExpenseSplit df now pct).category_breakdown = []
    ∧ (calculateExpenseSplit df now pct).num_expense_transactions = 0
    ∧ (calculateExpenseSplit df now pct).date_range = none := by
  simp [calculateExpenseSplit, h, dateRange, categorySplitsAbsOf, pdUnique, pdUniqueAux, ratAbs]

/-- Witness for C6 on the empty account. -/
theorem claimC6_empty_window_witness :
    expenseWindowExpenses [] 0 = []
    ∧ (calculateExpenseSplit [] 0 50).total_expenses = 0
    ∧ (calculateExpenseSplit [] 0 50).category_breakdown = []
    ∧ (calculateExpenseSplit [] 0 50).date_range = none :=
  ⟨rfl, (claimC6_empty_window [] 0 50 rfl).1, (claimC6_empty_window [] 0 50 rfl).2.2.2.1,
    (claimC6_empty_window [] 0 50 rfl).2.2.2.2.2⟩

/-- C8: get_recent_activity counts a transaction dated exactly days before
the reference time (inclusive boundary) and excludes one dated days + 1
before it; num_transactions is the size of that window filter. -/
theorem claimC8_recent_boundary (df : List Transaction) (now days : Int) (t : Transaction)
    (ht : t ∈ df) :
    ((t.date = now - days → t ∈ recentWindow df now days)
    ∧ (t.date = now - days - 1 → t ∉ recentWindow df now days))
    ∧ (getRecentActivity df now days).num_transactions = (recentWindow df now days).length := by
  refine ⟨⟨?_, ?_⟩, rfl⟩
  · intro hd
    exact List.mem_filter.mpr ⟨ht, by simp [hd]⟩
  · intro hd hmem
    have h2 := (List.mem_filter.mp hmem).2
    rw [hd] at h2
    simp only [decide_eq_true_eq] at h2
    omega

/-- Witness for C8: day 0 is inside a 30-day window ending at day 30, and
day -1 is outside it. -/
theorem claimC8_recent_boundary_witness :
    txCoffee ∈ recentWindow [txCoffee, txOld] 30 30
    ∧ txOld ∉ recentWindow [txCoffee, txOld] 30 30 :=
  ⟨(claimC8_recent_boundary [txCoffee, txOld] 30 30 txCoffee (by decide)).1.1 (by decide),
    (claimC8_recent_boundary [txCoffee, txOld] 30 30 txOld (by decide)).1.2 (by decide)⟩

/-- Witness for C7: the first entry reported on the fixture account comes
from a matching row of the account, and the empty account yields the
zero-valued result. -/
theorem claimC7_payment_patterns_witness :
    (∃ t, t ∈ [txPayment, txGrocery] ∧ t.amount < 0
      ∧ strictPaymentPattern t.descr = true
      ∧ ({ date := 31, amount := ratAbs (-500), descr := "CREDIT CARD PAYMENT" } : PaymentEntry)
        = { date := t.date, amount := ratAbs t.amount, descr := t.descr })
    ∧ analyzePaymentPatterns []
      = { recent_payments := [], total_recent_payments := 0, payment_count := 0 } :=
  ⟨(claimC7_payment_patterns [txPayment, txGrocery]).2.2.2.1 _ (by decide),
    (claimC7_payment_patterns []).2.2.2.2.2 rfl⟩

/-- Counterexample to C3 as stated: one positive-amount transaction whose
category cell is null is counted in total_expenses but appears in no
category bucket, so the breakdown sums to 0 while total_expenses is 5. -/
theorem claimC3_counterexample :
    ¬ (((calculateCurrentBalanceSplit [txMystery] 50).category_breakdown.map
        CategorySplit.total_amount).sum
      = (calculateCurrentBalanceSplit [txMystery] 50).total_expenses) := by
  have hbd : (calculateCurrentBalanceSplit [txMystery] 50).category_breakdown = [] := by decide
  have hte : (calculateCurrentBalanceSplit [txMystery] 50).total_expenses = 5 := by
    simp [calculateCurrentBalanceSplit, txMystery]
  rw [hbd, hte]
  norm_num

/-- C3 (amended): for both split operations the category subtotals sum to the
reported expense total provided every transaction of the respective filtered
expense set has a non-null category (null-category rows are counted in the
total but excluded from the breakdown). -/
theorem claimC3_breakdown_sums (df : List Transaction) (now pct : Int)
    (h1 : ∀ t ∈ df.filter fun t => decide (0 < t.amount), t.category ≠ none)
    (h2 : ∀ t ∈ expenseWindowExpenses df now, t.category ≠ none) :
    (((calculateCurrentBalanceSplit df pct).category_breakdown.map
        CategorySplit.total_amount).sum
      = (calculateCurrentBalanceSplit df pct).total_expenses)
    ∧ (((calculateExpenseSplit df now pct).category_breakdown.map
        CategorySplit.total_amount).sum
      = (calculateExpenseSplit df now pct).total_expenses) := by
  constructor
  · simp only [calculateCurrentBalanceSplit]
    have hperm : ((List.insertionSort
          (fun a b : CategorySplit => b.total_amount ≤ a.total_amount)
          (categorySplitsOf (df.filter fun t => decide (0 < t.amount)) pct)).map
            CategorySplit.total_amount).sum
        = ((categorySplitsOf (df.filter fun t => decide (0 < t.amount)) pct).map
            CategorySplit.total_amount).sum :=
      ((List.perm_insertionSort _ _).map _).sum_eq
    rw [hperm, sum_categorySplitsOf _ _ h1]
    by_cases he : (df.filter fun t => decide (0 < t.amount)).length = 0
    · rw [if_pos he, List.length_eq_zero.mp he]
      simp
    · rw [if_neg he]
  · simp only [calculateExpenseSplit]
    have hperm : ((List.insertionSort
          (fun a b : CategorySplit => b.total_amount ≤ a.total_amount)
          (categorySplitsAbsOf (expenseWindowExpenses df now) pct)).map
            CategorySplit.total_amount).sum
        = ((categorySplitsAbsOf (expenseWindowExpenses df now) pct).map
            CategorySplit.total_amount).sum :=
      ((List.perm_insertionSort _ _).map _).sum_eq
    rw [hperm]
    apply sum_categorySplitsAbsOf _ _ h2
    intro t ht
    exact of_decide_eq_true (List.mem_filter.mp ht).2

/-- Witness for C3 on a fully categorised account. -/
theorem claimC3_breakdown_sums_witness :
    (∀ t ∈ [txDining].filter fun t => decide (0 < t.amount), t.category ≠ none)
    ∧ (∀ t ∈ expenseWindowExpenses [txDining] 11, t.category ≠ none)
    ∧ (((calculateCurrentBalanceSplit [txDining] 50).category_breakdown.map
        CategorySplit.total_amount).sum
      = (calculateCurrentBalanceSplit [txDining] 50).total_expenses) :=
  ⟨by decide, by decide,
    (claimC3_breakdown_sums [txDining] 11 50 (by decide) (by decide)).1⟩
